import Mathlib

/-
  Verification of the algo-trader backend against its specification.

  Shallow embedding of the Python modules:
    app/orders/state_machine.py   (OrderStateMachine)
    app/risk/circuit_breaker.py   (CircuitBreaker)
    app/risk/position_sizer.py    (PositionSizer)
    app/engine/indicators.py      (SMA ring buffer)
    app/strategy/velez.py         (VelezStrategy)
    app/backtest/executor.py      (BacktestExecution sim broker)

  Python Decimal / float values are modelled as exact rationals (ℚ);
  Python dicts are modelled as association lists with lookup / insert /
  erase semantics matching dict indexing, assignment and deletion.
-/

deriving instance DecidableEq for Except

namespace AlgoTrader

/-! ## app/orders/types.py -/

/-- Local order lifecycle states (`OrderState` in app/orders/types.py).
The Python `PARTIALLY_FILLED` member is named `part_filled` here. -/
inductive OrderState
  | pending_submit
  | submitted
  | accepted
  | part_filled
  | filled
  | canceled
  | expired
  | rejected
  | submit_failed
deriving DecidableEq, Fintype

/-- `TERMINAL_STATES` frozenset from app/orders/types.py. -/
def TERMINAL_STATES : List OrderState :=
  [.filled, .canceled, .expired, .rejected, .submit_failed]

/-! ## app/orders/state_machine.py -/

/-- Payload of `InvalidTransitionError` (from-state and to-state). -/
structure InvalidTransitionError where
  from_state : OrderState
  to_state : OrderState
deriving DecidableEq

/-- `OrderStateMachine.TRANSITIONS` table; a state that is not a key of the
Python dict maps to the empty set (the `dict.get` default `frozenset()`). -/
def TRANSITIONS : OrderState → List OrderState
  | .pending_submit => [.submitted, .submit_failed]
  | .submitted => [.accepted, .rejected, .filled, .canceled, .expired]
  | .accepted => [.part_filled, .filled, .canceled, .expired]
  | .part_filled => [.part_filled, .filled, .canceled]
  | _ => []

/-- `OrderStateMachine.transition`: raising `InvalidTransitionError` is
modelled as returning `Except.error`; success returns the new state
(the Python mutation `self._state = to`; on error the state is untouched). -/
def transition (s t : OrderState) : Except InvalidTransitionError OrderState :=
  if s ∈ TERMINAL_STATES then .error ⟨s, t⟩
  else if t ∈ TRANSITIONS s then .ok t
  else .error ⟨s, t⟩

/-! ## app/risk/circuit_breaker.py -/

/-- Mutable state of `CircuitBreaker`, including its two config
parameters (`max_daily_loss_pct`, `consecutive_loss_pause`). -/
structure CircuitBreaker where
  max_daily_loss_pct : ℚ
  consecutive_loss_pause : ℕ
  start_of_day_equity : ℚ
  daily_realized_pnl : ℚ
  consecutive_losses : ℕ
  paused : Bool
  pause_reason : String
deriving DecidableEq

namespace CircuitBreaker

/-- `CircuitBreaker.__init__`. -/
def mk0 (max_daily_loss_pct : ℚ) (consecutive_loss_pause : ℕ) : CircuitBreaker :=
  { max_daily_loss_pct := max_daily_loss_pct
    consecutive_loss_pause := consecutive_loss_pause
    start_of_day_equity := 0
    daily_realized_pnl := 0
    consecutive_losses := 0
    paused := false
    pause_reason := "" }

/-- `CircuitBreaker.reset_daily`. -/
def reset_daily (cb : CircuitBreaker) (start_of_day_equity : ℚ) : CircuitBreaker :=
  { cb with
    start_of_day_equity := start_of_day_equity
    daily_realized_pnl := 0
    consecutive_losses := 0
    paused := false
    pause_reason := "" }

/-- `CircuitBreaker._check_limits`. -/
def check_limits (cb : CircuitBreaker) : CircuitBreaker :=
  if cb.paused then cb
  else if cb.consecutive_loss_pause ≤ cb.consecutive_losses then
    { cb with
      paused := true
      pause_reason :=
        "Consecutive loss limit: " ++ toString cb.consecutive_losses ++
          " consecutive losses" }
  else if 0 < cb.start_of_day_equity then
    let max_loss := cb.start_of_day_equity * cb.max_daily_loss_pct
    if cb.daily_realized_pnl ≤ -max_loss then
      { cb with
        paused := true
        pause_reason :=
          "Daily loss limit: realized P&L " ++ toString cb.daily_realized_pnl ++
            " exceeds -" ++ toString max_loss }
    else cb
  else cb

/-- `CircuitBreaker.record_trade`. -/
def record_trade (cb : CircuitBreaker) (pnl : ℚ) : CircuitBreaker :=
  let cb1 := { cb with daily_realized_pnl := cb.daily_realized_pnl + pnl }
  let cb2 :=
    if pnl ≤ 0 then { cb1 with consecutive_losses := cb1.consecutive_losses + 1 }
    else { cb1 with consecutive_losses := 0 }
  check_limits cb2

/-- `CircuitBreaker.can_trade`. -/
def can_trade (cb : CircuitBreaker) : Bool × String :=
  if cb.paused then (false, cb.pause_reason) else (true, "")

end CircuitBreaker

/-! ## app/risk/position_sizer.py -/

/-- The fields of `RiskConfig` (app/config.py) used by `PositionSizer`. -/
structure RiskConfig where
  max_risk_per_trade_pct : ℚ
  max_risk_per_trade_abs : ℚ
  max_position_pct : ℚ
deriving DecidableEq

/-- `SizingResult` dataclass. -/
structure SizingResult where
  qty : ℚ
  risk_amount : ℚ
  stop_distance : ℚ
  position_value : ℚ
  reason : String
deriving DecidableEq

/-- Python `Decimal(int(x))`: truncation toward zero on exact decimals. -/
def truncQ (q : ℚ) : ℚ := ((if q < 0 then ⌈q⌉ else ⌊q⌋ : ℤ) : ℚ)

/-- `PositionSizer.calculate`. -/
def calculate (cfg : RiskConfig) (equity buying_power entry_price stop_loss_price : ℚ) :
    SizingResult :=
  if entry_price ≤ 0 then
    { qty := 0, risk_amount := 0, stop_distance := 0, position_value := 0
      reason := "Invalid entry price" }
  else
    let stop_distance := |entry_price - stop_loss_price|
    if stop_distance = 0 then
      { qty := 0, risk_amount := 0, stop_distance := 0, position_value := 0
        reason := "Stop distance is zero" }
    else
      let risk_by_pct := equity * cfg.max_risk_per_trade_pct
      let risk_amount := min risk_by_pct cfg.max_risk_per_trade_abs
      let raw_shares := risk_amount / stop_distance
      let qty1 := truncQ raw_shares
      if qty1 < 1 then
        { qty := 0, risk_amount := risk_amount, stop_distance := stop_distance
          position_value := 0, reason := "Risk budget too small for stop distance" }
      else
        let max_position_value := equity * cfg.max_position_pct
        let max_qty_by_value := truncQ (max_position_value / entry_price)
        let qty2 := min qty1 max_qty_by_value
        if buying_power < entry_price then
          { qty := 0, risk_amount := risk_amount, stop_distance := stop_distance
            position_value := 0, reason := "Insufficient buying power for even 1 share" }
        else
          let max_qty_by_power := truncQ (buying_power / entry_price)
          let qty3 := min qty2 max_qty_by_power
          if qty3 < 1 then
            { qty := 0, risk_amount := risk_amount, stop_distance := stop_distance
              position_value := 0, reason := "Position size clamped to zero by limits" }
          else
            { qty := qty3, risk_amount := risk_amount, stop_distance := stop_distance
              position_value := qty3 * entry_price, reason := "" }

/-! ## app/broker/types.py -/

/-- Order side. -/
inductive Side
  | buy
  | sell
deriving DecidableEq

/-- Supported order types. -/
inductive OrderType
  | market
  | limit
  | stop
  | stop_limit
  | trailing_stop
deriving DecidableEq

/-- Order status values reported by the (simulated) broker; only the two
statuses the sim broker produces are modelled. -/
inductive BrokerOrderStatus
  | accepted
  | filled
deriving DecidableEq

/-- OHLCV bar. Timestamps are modelled as integers; the Python `open`
field is spelled `«open»` because `open` is a Lean keyword. -/
structure Bar where
  symbol : String
  timestamp : ℤ
  «open» : ℚ
  high : ℚ
  low : ℚ
  close : ℚ
  volume : ℤ
deriving DecidableEq

/-! ## app/engine/indicators.py -/

/-- `SMA` ring buffer with running sum: `period`, the deque contents
(oldest first, capacity `period`) and the running `sum`.
Float values are modelled as exact rationals. -/
structure SMA where
  period : ℕ
  buf : List ℚ
  sum : ℚ
deriving DecidableEq

namespace SMA

/-- `SMA.__init__` (the constructor raises unless `period ≥ 1`). -/
def mk0 (period : ℕ) : SMA := { period := period, buf := [], sum := 0 }

/-- `SMA.update`: on a full deque, `append` evicts the oldest element and
the running sum drops the evicted `buf[0]` before adding the new value. -/
def update (s : SMA) (value : ℚ) : SMA :=
  if s.buf.length = s.period then
    { s with buf := s.buf.tail ++ [value], sum := s.sum - s.buf.headD 0 + value }
  else
    { s with buf := s.buf ++ [value], sum := s.sum + value }

/-- `SMA.value` property: `None` until warm, else `sum / period`. -/
def value (s : SMA) : Option ℚ :=
  if s.buf.length < s.period then none else some (s.sum / (s.period : ℚ))

/-- Feed a whole input sequence through `update`, starting empty. -/
def run (period : ℕ) (xs : List ℚ) : SMA := xs.foldl update (mk0 period)

end SMA

/-- The last `n` elements of a list. -/
def lastN (n : ℕ) (xs : List ℚ) : List ℚ := xs.drop (xs.length - n)

/-- Naive SMA, written from the spec sentence: the value is absent until
`period` inputs have arrived, and is the arithmetic mean (sum divided by
`period`) of the last `period` inputs afterwards. -/
def smaSpecValue (period : ℕ) (xs : List ℚ) : Option ℚ :=
  if xs.length < period then none
  else some ((lastN period xs).sum / (period : ℚ))

/-- `IndicatorSet` dataclass. -/
structure IndicatorSet where
  sma_fast : Option ℚ := none
  sma_slow : Option ℚ := none
  prev_sma_fast : Option ℚ := none
  prev_sma_slow : Option ℚ := none
  bar_count : ℕ := 0
deriving DecidableEq

/-! ## app/strategy/velez.py -/

/-- The fields of `VelezConfig` (app/config.py) used by `VelezStrategy`. -/
structure VelezConfig where
  sma_slow : ℕ
  tightness_threshold_pct : ℚ
  strong_candle_body_pct : ℚ
  doji_threshold_pct : ℚ
  stop_buffer_pct : ℚ
  stop_buffer_min : ℚ
  buy_stop_expiry_candles : ℕ
  max_run_candles : ℕ
deriving DecidableEq

/-- `VelezStrategy._body_pct`: body as a percentage of total range,
0 when the range is 0. -/
def body_pct (bar : Bar) : ℚ :=
  let total_range := bar.high - bar.low
  if total_range = 0 then 0
  else |bar.close - bar.«open»| / total_range * 100

/-- `VelezStrategy._is_strong_candle`. -/
def is_strong_candle (cfg : VelezConfig) (bar : Bar) : Bool :=
  cfg.strong_candle_body_pct ≤ body_pct bar

/-- `VelezStrategy._is_doji`. -/
def is_doji (cfg : VelezConfig) (bar : Bar) : Bool :=
  body_pct bar < cfg.doji_threshold_pct

/-- `VelezStrategy.should_long`: the early-return chain of checks. -/
def should_long (cfg : VelezConfig) (bar : Bar) (indicators : IndicatorSet) : Bool :=
  if indicators.bar_count < cfg.sma_slow then false
  else
    match indicators.sma_fast, indicators.sma_slow,
        indicators.prev_sma_fast, indicators.prev_sma_slow with
    | some sma_f, some sma_s, some prev_f, some prev_s =>
      let price := bar.close
      if price = 0 then false
      else
        let spread := |sma_f - sma_s|
        if cfg.tightness_threshold_pct ≤ spread / price * 100 then false
        else
          let current_gap := sma_f - sma_s
          let prev_gap := prev_f - prev_s
          if current_gap ≤ prev_gap then false
          else if sma_f ≤ sma_s then false
          else if bar.close ≤ bar.«open» then false
          else is_strong_candle cfg bar
    | _, _, _, _ => false

/-- `_TrailState` enum. -/
inductive TrailState
  | watching
  | pulling_back
  | trailing
deriving DecidableEq

/-- The mutable trailing-stop state of a `VelezStrategy` instance. -/
structure VelezStrategy where
  trail_state : TrailState
  pullback_low : ℚ
  green_count : ℕ
  strong_run_count : ℕ
deriving DecidableEq

namespace VelezStrategy

/-- `VelezStrategy.__init__` trailing-stop fields. -/
def mk0 : VelezStrategy :=
  { trail_state := .watching, pullback_low := 0, green_count := 0
    strong_run_count := 0 }

/-- `VelezStrategy._on_watching`. -/
def on_watching (cfg : VelezConfig) (s : VelezStrategy) (bar : Bar) :
    VelezStrategy × Option ℚ :=
  if is_doji cfg bar then (s, none)
  else if bar.close < bar.«open» then
    let s1 := { s with
      trail_state := TrailState.pulling_back
      pullback_low := bar.low
      green_count := 0 }
    (s1, none)
  else (s, none)

/-- `VelezStrategy._on_pulling_back`. -/
def on_pulling_back (cfg : VelezConfig) (s : VelezStrategy) (bar : Bar) :
    VelezStrategy × Option ℚ :=
  if is_doji cfg bar then (s, none)
  else if bar.close < bar.«open» then
    ({ s with pullback_low := min s.pullback_low bar.low, green_count := 0 }, none)
  else
    let gc := s.green_count + 1
    if 2 ≤ gc then
      let s1 := { s with
        green_count := gc
        trail_state := TrailState.trailing
        strong_run_count := 0 }
      (s1, some s.pullback_low)
    else ({ s with green_count := gc }, none)

/-- `VelezStrategy._on_trailing`. -/
def on_trailing (cfg : VelezConfig) (s : VelezStrategy) (bar : Bar) :
    VelezStrategy × Option ℚ :=
  if is_doji cfg bar then (s, none)
  else if bar.close < bar.«open» then
    ({ s with trail_state := .watching }, none)
  else (s, none)

/-- `VelezStrategy.should_update_stop`: method-per-state dispatch. The
`position` and `indicators` arguments are unused by the Python code and
are omitted. -/
def should_update_stop (cfg : VelezConfig) (s : VelezStrategy) (bar : Bar) :
    VelezStrategy × Option ℚ :=
  match s.trail_state with
  | .watching => on_watching cfg s bar
  | .pulling_back => on_pulling_back cfg s bar
  | .trailing => on_trailing cfg s bar

/-- Resulting strategy state after a sequence of `should_update_stop` calls. -/
def run_trail (cfg : VelezConfig) (s : VelezStrategy) (bars : List Bar) :
    VelezStrategy :=
  bars.foldl (fun s1 b => (should_update_stop cfg s1 b).1) s

/-- `stays_pb cfg s bars` holds when every state reached from `s` while
processing `bars` is still `PULLING_BACK`. -/
def stays_pb (cfg : VelezConfig) : VelezStrategy → List Bar → Bool
  | _, [] => true
  | s, b :: bs =>
    let s1 := (should_update_stop cfg s b).1
    decide (s1.trail_state = TrailState.pulling_back) && stays_pb cfg s1 bs

/-- Running minimum of the lows of the red non-doji bars of a sequence,
seeded with `m`. -/
def red_low_fold (cfg : VelezConfig) (m : ℚ) (bars : List Bar) : ℚ :=
  bars.foldl
    (fun m1 b =>
      if is_doji cfg b = false ∧ b.close < b.«open» then min m1 b.low else m1) m

end VelezStrategy

/-! ## app/backtest/executor.py

Python dicts are modelled as association lists; `alookup`, `ainsert` and
`aerase` match dict indexing, assignment and deletion (iteration order of
the dict is abstracted). -/

/-- Dict lookup. -/
def alookup {α : Type} : List (String × α) → String → Option α
  | [], _ => none
  | (k, v) :: rest, key => if k = key then some v else alookup rest key

/-- Dict deletion (`del m[key]`): drops every binding of `key`. -/
def aerase {α : Type} (m : List (String × α)) (key : String) : List (String × α) :=
  m.filter (fun p => decide (p.1 ≠ key))

/-- Dict assignment (`m[key] = v`): replaces any old binding of `key`. -/
def ainsert {α : Type} (m : List (String × α)) (key : String) (v : α) :
    List (String × α) :=
  (key, v) :: aerase m key

/-- `OrderRole` enum (app/orders/types.py). -/
inductive OrderRole
  | entry
  | stop_loss
  | exit_market
deriving DecidableEq

/-- `_PendingOrder` dataclass. -/
structure PendingOrder where
  order_id : String
  symbol : String
  side : Side
  qty : ℚ
  order_type : OrderType
  stop_price : Option ℚ
  limit_price : Option ℚ
  role : OrderRole
  candles_since : ℕ := 0
deriving DecidableEq

/-- `_SimPosition` dataclass. -/
structure SimPosition where
  symbol : String
  qty : ℚ
  avg_entry_price : ℚ
  market_value : ℚ
  unrealized_pl : ℚ
  opened_at : ℤ
deriving DecidableEq

/-- `Fill` dataclass. -/
structure Fill where
  order_id : String
  symbol : String
  side : Side
  qty : ℚ
  fill_price : ℚ
  timestamp : ℤ
  order_role : OrderRole
deriving DecidableEq

/-- The fields of `OrderStatus` recorded in the filled-orders log. -/
structure OrderStatus where
  broker_order_id : String
  symbol : String
  side : Side
  qty : ℚ
  order_type : OrderType
  status : BrokerOrderStatus
  filled_qty : ℚ
  filled_avg_price : Option ℚ
  submitted_at : ℤ
deriving DecidableEq

/-- `_MIN_FILL_PRICE = Decimal("0.01")`. -/
def MIN_FILL_PRICE : ℚ := 1 / 100

/-- The mutable state of `BacktestExecution` (the sim broker). -/
structure BacktestExecution where
  cash : ℚ
  slippage : ℚ
  pending_orders : List (String × PendingOrder)
  next_order_id : ℕ
  positions : List (String × SimPosition)
  closed_positions : List (String × SimPosition)
  planned_stops : List (String × ℚ)
  entry_filled_this_bar : List String
  filled_orders : List OrderStatus
deriving DecidableEq

namespace BacktestExecution

/-- `BacktestExecution._apply_slippage_buy`: price + slippage, clamped to
`bar.high`, floored at `_MIN_FILL_PRICE`. -/
def apply_slippage_buy (slippage base_price : ℚ) (bar : Bar) : ℚ :=
  max (min (base_price + slippage) bar.high) MIN_FILL_PRICE

/-- `BacktestExecution._apply_slippage_sell`: price − slippage, clamped to
`bar.low`, floored at `_MIN_FILL_PRICE`. -/
def apply_slippage_sell (slippage base_price : ℚ) (bar : Bar) : ℚ :=
  max (max (base_price - slippage) bar.low) MIN_FILL_PRICE

/-- The `OrderStatus` record appended to the filled-orders log. -/
def filled_status (o : PendingOrder) (fill_price : ℚ) (timestamp : ℤ) :
    OrderStatus :=
  { broker_order_id := o.order_id
    symbol := o.symbol
    side := o.side
    qty := o.qty
    order_type := o.order_type
    status := .filled
    filled_qty := o.qty
    filled_avg_price := some fill_price
    submitted_at := timestamp }

/-- `BacktestExecution._execute_fill`: update cash and positions, remove
the pending order, append to the filled-orders log, and return the fill. -/
def execute_fill (st : BacktestExecution) (o : PendingOrder) (fill_price : ℚ)
    (timestamp : ℤ) : BacktestExecution × Fill :=
  let st1 :=
    if o.side = Side.buy then
      let cost := o.qty * fill_price
      { st with
        cash := st.cash - cost
        positions := ainsert st.positions o.symbol
          { symbol := o.symbol
            qty := o.qty
            avg_entry_price := fill_price
            market_value := cost
            unrealized_pl := 0
            opened_at := timestamp } }
    else
      match alookup st.positions o.symbol with
      | some pos =>
        let proceeds := o.qty * fill_price
        { st with
          cash := st.cash + proceeds
          closed_positions := ainsert st.closed_positions o.symbol pos
          positions := aerase st.positions o.symbol }
      | none => st
  let st2 := { st1 with
    pending_orders := aerase st1.pending_orders o.order_id
    filled_orders := st1.filled_orders ++ [filled_status o fill_price timestamp] }
  (st2,
    { order_id := o.order_id
      symbol := o.symbol
      side := o.side
      qty := o.qty
      fill_price := fill_price
      timestamp := timestamp
      order_role := o.role })

/-- `BacktestExecution._try_fill_stop_buy`: triggers when
`bar.high ≥ stop_price`; marks the symbol as entry-filled this bar.
(The Python code asserts `stop_price is not None`.) -/
def try_fill_stop_buy (st : BacktestExecution) (o : PendingOrder) (bar : Bar) :
    BacktestExecution × Option Fill :=
  match o.stop_price with
  | none => (st, none)
  | some sp =>
    if bar.high < sp then (st, none)
    else
      let base_price := max bar.«open» sp
      let fill_price := apply_slippage_buy st.slippage base_price bar
      let st1 := { st with entry_filled_this_bar := o.symbol :: st.entry_filled_this_bar }
      let r := execute_fill st1 o fill_price bar.timestamp
      (r.1, some r.2)

/-- `BacktestExecution._try_fill_stop_sell`: skipped if this symbol had an
entry fill this bar; triggers when `bar.low ≤ stop_price`.
(The Python code asserts `stop_price is not None`.) -/
def try_fill_stop_sell (st : BacktestExecution) (o : PendingOrder) (bar : Bar) :
    BacktestExecution × Option Fill :=
  match o.stop_price with
  | none => (st, none)
  | some sp =>
    if o.symbol ∈ st.entry_filled_this_bar then (st, none)
    else if sp < bar.low then (st, none)
    else
      let base_price := min bar.«open» sp
      let fill_price := apply_slippage_sell st.slippage base_price bar
      let r := execute_fill st o fill_price bar.timestamp
      (r.1, some r.2)

/-- `BacktestExecution._try_fill_market`: fills at open ± slippage. -/
def try_fill_market (st : BacktestExecution) (o : PendingOrder) (bar : Bar) :
    BacktestExecution × Option Fill :=
  let fill_price :=
    if o.side = Side.buy then apply_slippage_buy st.slippage bar.«open» bar
    else apply_slippage_sell st.slippage bar.«open» bar
  let r := execute_fill st o fill_price bar.timestamp
  (r.1, some r.2)

/-- Run one of the `_try_fill_*` simulators over a list of orders,
threading the broker state and collecting the fills. -/
def fill_fold (f : BacktestExecution → PendingOrder → Bar → BacktestExecution × Option Fill)
    (bar : Bar) (acc0 : BacktestExecution × List Fill) (orders : List PendingOrder) :
    BacktestExecution × List Fill :=
  orders.foldl
    (fun acc o =>
      let r := f acc.1 o bar
      (r.1, acc.2 ++ r.2.toList)) acc0

/-- `BacktestExecution.process_bar`: clear the per-bar entry set, collect
this symbol's pending orders, and fill stop-losses first, then buy-stop
entries, then market orders. -/
def process_bar (st : BacktestExecution) (bar : Bar) : BacktestExecution × List Fill :=
  let st0 := { st with entry_filled_this_bar := [] }
  let symbol_orders :=
    (st0.pending_orders.map Prod.snd).filter (fun o => decide (o.symbol = bar.symbol))
  if symbol_orders.isEmpty then (st0, [])
  else
    let stop_losses := symbol_orders.filter
      (fun o => decide (o.side = Side.sell ∧ o.order_type = OrderType.stop))
    let entries := symbol_orders.filter
      (fun o => decide (o.side = Side.buy ∧ o.order_type = OrderType.stop))
    let markets := symbol_orders.filter
      (fun o => decide (o.order_type = OrderType.market))
    let r1 := fill_fold try_fill_stop_sell bar (st0, []) stop_losses
    let r2 := fill_fold try_fill_stop_buy bar (r1.1, []) entries
    let r3 := fill_fold try_fill_market bar (r2.1, []) markets
    (r3.1, r1.2 ++ r2.2 ++ r3.2)

/-- The broker state at the start of `process_bar` (per-bar entry set
cleared). -/
def clear_bar (st : BacktestExecution) : BacktestExecution :=
  { st with entry_filled_this_bar := [] }

/-- The pending sell-stop (stop-loss) orders for this bar's symbol. -/
def sell_stop_orders (st : BacktestExecution) (bar : Bar) : List PendingOrder :=
  ((st.pending_orders.map Prod.snd).filter
      (fun o => decide (o.symbol = bar.symbol))).filter
    (fun o => decide (o.side = Side.sell ∧ o.order_type = OrderType.stop))

/-- The pending buy-stop (entry) orders for this bar's symbol. -/
def entry_stop_orders (st : BacktestExecution) (bar : Bar) : List PendingOrder :=
  ((st.pending_orders.map Prod.snd).filter
      (fun o => decide (o.symbol = bar.symbol))).filter
    (fun o => decide (o.side = Side.buy ∧ o.order_type = OrderType.stop))

/-- The pending market orders for this bar's symbol. -/
def market_orders (st : BacktestExecution) (bar : Bar) : List PendingOrder :=
  ((st.pending_orders.map Prod.snd).filter
      (fun o => decide (o.symbol = bar.symbol))).filter
    (fun o => decide (o.order_type = OrderType.market))

end BacktestExecution

/-! ## Concrete example inputs (used by witnesses and counterexamples) -/

/-- An example Velez configuration with in-range thresholds. -/
def cfgEx : VelezConfig :=
  { sma_slow := 1
    tightness_threshold_pct := 5
    strong_candle_body_pct := 10
    doji_threshold_pct := 10
    stop_buffer_pct := 0
    stop_buffer_min := 0
    buy_stop_expiry_candles := 3
    max_run_candles := 3 }

/-- A red non-doji bar (body 50% of range). -/
def redBar : Bar :=
  { symbol := "A", timestamp := 0, «open» := 10, high := 10, low := 8
    close := 9, volume := 100 }

/-- A green bar with a negative close price (close −1 above «open» −2). -/
def negBar : Bar :=
  { symbol := "X", timestamp := 0, «open» := -2, high := 3, low := -3
    close := -1, volume := 0 }

/-- Indicators that satisfy every `should_long` condition except a
positive close: warm, tight, widening upward gap. -/
def indEx : IndicatorSet :=
  { sma_fast := some 2, sma_slow := some 1, prev_sma_fast := some 1
    prev_sma_slow := some 1, bar_count := 1 }

/-- An open AAPL position of 10 shares at $140. -/
def posEx : SimPosition :=
  { symbol := "AAPL", qty := 10, avg_entry_price := 140, market_value := 1400
    unrealized_pl := 0, opened_at := 0 }

/-- A pending sell-stop (stop-loss) order at $150. -/
def sellStopEx : PendingOrder :=
  { order_id := "bt-1", symbol := "AAPL", side := .sell, qty := 10
    order_type := .stop, stop_price := some 150, limit_price := none
    role := .stop_loss }

/-- A pending buy-stop (entry) order at $155. -/
def buyStopEx : PendingOrder :=
  { order_id := "bt-2", symbol := "AAPL", side := .buy, qty := 5
    order_type := .stop, stop_price := some 155, limit_price := none
    role := .entry }

/-- An example sim-broker state with both pending orders and the open
AAPL position. -/
def brokerEx : BacktestExecution :=
  { cash := 100000
    slippage := 1/100
    pending_orders := [("bt-1", sellStopEx), ("bt-2", buyStopEx)]
    next_order_id := 2
    positions := [("AAPL", posEx)]
    closed_positions := []
    planned_stops := []
    entry_filled_this_bar := []
    filled_orders := [] }

/-- An AAPL bar touching both stops. -/
def barEx : Bar :=
  { symbol := "AAPL", timestamp := 0, «open» := 152, high := 156, low := 149
    close := 154, volume := 1000 }

/-- The risk configuration of the spec's happy-path scenario: 2% / $500
risk caps, 25% position cap. -/
def riskCfgEx : RiskConfig :=
  { max_risk_per_trade_pct := 1/50
    max_risk_per_trade_abs := 500
    max_position_pct := 1/4 }

/-! ## Theorems -/

/-- C1: `OrderStateMachine.transition(t)` from state `s` succeeds with new
state `t` if and only if the static transition table allows `s -> t`;
otherwise it fails with `InvalidTransitionError` carrying `(s, t)` (the
state is unchanged). In particular every transition out of a terminal
state fails, and `PARTIALLY_FILLED -> PARTIALLY_FILLED` succeeds. -/
theorem C1_transition_iff_table :
    ∀ s t : OrderState,
      (transition s t = Except.ok t ↔ t ∈ TRANSITIONS s) ∧
      (t ∉ TRANSITIONS s → transition s t = Except.error ⟨s, t⟩) ∧
      (s ∈ TERMINAL_STATES → transition s t = Except.error ⟨s, t⟩) ∧
      transition .part_filled .part_filled = Except.ok .part_filled := by
  decide

/-- Witness for C1 at concrete states: from terminal `FILLED` the
transition to `CANCELED` fails carrying the pair, and the
`PARTIALLY_FILLED` self-loop succeeds. -/
theorem C1_transition_iff_table_witness :
    transition OrderState.filled OrderState.canceled =
        Except.error ⟨OrderState.filled, OrderState.canceled⟩ ∧
      transition OrderState.part_filled OrderState.part_filled =
        Except.ok OrderState.part_filled :=
  ⟨(C1_transition_iff_table OrderState.filled OrderState.canceled).2.1 (by decide),
    (C1_transition_iff_table OrderState.filled OrderState.canceled).2.2.2⟩

namespace CircuitBreaker

/-- `_check_limits` returns its input unchanged when already paused. -/
theorem check_limits_of_paused (cb : CircuitBreaker) (h : cb.paused = true) :
    check_limits cb = cb := by
  unfold check_limits
  simp [h]

/-- `record_trade` keeps a paused breaker paused with the same reason. -/
theorem record_trade_paused (cb : CircuitBreaker) (h : cb.paused = true) (pnl : ℚ) :
    (cb.record_trade pnl).paused = true ∧
      (cb.record_trade pnl).pause_reason = cb.pause_reason := by
  unfold record_trade
  split <;> simp [check_limits_of_paused, h]

/-- Any sequence of `record_trade` calls keeps a paused breaker paused
with the same reason. -/
theorem foldl_record_trade_paused (pnls : List ℚ) :
    ∀ cb : CircuitBreaker, cb.paused = true →
      (pnls.foldl record_trade cb).paused = true ∧
        (pnls.foldl record_trade cb).pause_reason = cb.pause_reason := by
  induction pnls with
  | nil => intro cb h; exact ⟨h, rfl⟩
  | cons p ps ih =>
    intro cb h
    have h1 := record_trade_paused cb h p
    have h2 := ih (cb.record_trade p) h1.1
    exact ⟨h2.1, h2.2.trans h1.2⟩

end CircuitBreaker

/-- C3: once `paused` is true, `can_trade()` returns false with the stored
pause reason, and stays false under any further sequence of
`record_trade` calls (any pnl values); `reset_daily` restores
`can_trade()` to `(true, "")` and clears `daily_realized_pnl`,
`consecutive_losses`, `paused` and `pause_reason`. -/
theorem C3_paused_absorbing (cb : CircuitBreaker) (h : cb.paused = true) :
    cb.can_trade = (false, cb.pause_reason) ∧
      (∀ pnls : List ℚ,
        (pnls.foldl CircuitBreaker.record_trade cb).paused = true ∧
          (pnls.foldl CircuitBreaker.record_trade cb).can_trade =
            (false, cb.pause_reason)) ∧
      (∀ equity : ℚ,
        (cb.reset_daily equity).can_trade = (true, "") ∧
          (cb.reset_daily equity).daily_realized_pnl = 0 ∧
          (cb.reset_daily equity).consecutive_losses = 0 ∧
          (cb.reset_daily equity).paused = false ∧
          (cb.reset_daily equity).pause_reason = "") := by
  refine ⟨by simp [CircuitBreaker.can_trade, h], fun pnls => ?_, fun equity => ?_⟩
  · have h1 := CircuitBreaker.foldl_record_trade_paused pnls cb h
    exact ⟨h1.1, by simp [CircuitBreaker.can_trade, h1.1, h1.2]⟩
  · simp [CircuitBreaker.can_trade, CircuitBreaker.reset_daily]

/-- Witness for C3 at a concrete paused breaker. -/
theorem C3_paused_absorbing_witness :
    ({ max_daily_loss_pct := 1/2, consecutive_loss_pause := 3
       start_of_day_equity := 100, daily_realized_pnl := -60
       consecutive_losses := 1, paused := true
       pause_reason := "Daily loss limit" } : CircuitBreaker).can_trade =
      (false, "Daily loss limit") :=
  (C3_paused_absorbing _ rfl).1

namespace CircuitBreaker

/-- `_check_limits` only ever touches `paused` and `pause_reason`. -/
theorem check_limits_fields (cb : CircuitBreaker) :
    (check_limits cb).daily_realized_pnl = cb.daily_realized_pnl ∧
      (check_limits cb).start_of_day_equity = cb.start_of_day_equity ∧
      (check_limits cb).max_daily_loss_pct = cb.max_daily_loss_pct := by
  unfold check_limits
  split_ifs <;> simp
  split_ifs <;> simp

/-- `_check_limits` pauses whenever the start-of-day equity is positive
and the realized P&L is at or below the (negated) daily loss limit. -/
theorem check_limits_daily_loss (cb : CircuitBreaker)
    (h0 : 0 < cb.start_of_day_equity)
    (h : cb.daily_realized_pnl ≤ -(cb.start_of_day_equity * cb.max_daily_loss_pct)) :
    (check_limits cb).paused = true := by
  unfold check_limits
  split_ifs <;> simp_all

end CircuitBreaker

/-- C6 counterexample: on a fresh breaker (`start_of_day_equity = 0`
before any `reset_daily`), after `record_trade(-5)` the inequality
`daily_realized_pnl ≤ -(start_of_day_equity × max_daily_loss_pct)` holds
(−5 ≤ 0) yet the breaker is not paused, because the code only applies the
daily-loss check when `start_of_day_equity > 0`. -/
theorem C6_counterexample :
    ((CircuitBreaker.mk0 (1/2) 3).record_trade (-5)).daily_realized_pnl ≤
        -(((CircuitBreaker.mk0 (1/2) 3).record_trade (-5)).start_of_day_equity *
            ((CircuitBreaker.mk0 (1/2) 3).record_trade (-5)).max_daily_loss_pct) ∧
      ((CircuitBreaker.mk0 (1/2) 3).record_trade (-5)).paused = false := by
  norm_num [CircuitBreaker.mk0, CircuitBreaker.record_trade,
    CircuitBreaker.check_limits]

/-- C6 (amended): after any `record_trade(pnl)` call, provided
`start_of_day_equity > 0`, if
`daily_realized_pnl ≤ -(start_of_day_equity × max_daily_loss_pct)` then
the breaker is paused (equality trips the limit). -/
theorem C6_daily_loss_trips (cb : CircuitBreaker) (pnl : ℚ)
    (h0 : 0 < cb.start_of_day_equity)
    (h : (cb.record_trade pnl).daily_realized_pnl ≤
      -((cb.record_trade pnl).start_of_day_equity *
        (cb.record_trade pnl).max_daily_loss_pct)) :
    (cb.record_trade pnl).paused = true := by
  unfold CircuitBreaker.record_trade at h ⊢
  by_cases hp : pnl ≤ 0 <;>
    simp only [if_pos, if_neg, hp, ite_true, ite_false] <;>
    simp only [if_pos, if_neg, hp, ite_true, ite_false] at h <;>
  · rw [(CircuitBreaker.check_limits_fields _).1,
      (CircuitBreaker.check_limits_fields _).2.1,
      (CircuitBreaker.check_limits_fields _).2.2] at h
    exact CircuitBreaker.check_limits_daily_loss _ (by simpa using h0) (by simpa using h)

/-- Witness for C6 (amended) at a concrete breaker: equity 100, 10% daily
loss limit, a single −10 trade trips the breaker exactly at the limit. -/
theorem C6_daily_loss_trips_witness :
    (({ max_daily_loss_pct := 1/10, consecutive_loss_pause := 100
        start_of_day_equity := 100, daily_realized_pnl := 0
        consecutive_losses := 0, paused := false
        pause_reason := "" } : CircuitBreaker).record_trade (-10)).paused = true :=
  C6_daily_loss_trips _ (-10) (by norm_num)
    (by norm_num [CircuitBreaker.record_trade, CircuitBreaker.check_limits])

namespace SMA

/-- Feeding one more value is one `update`. -/
theorem run_append (period : ℕ) (xs : List ℚ) (v : ℚ) :
    run period (xs ++ [v]) = (run period xs).update v := by
  simp [run, List.foldl_append]

/-- Ring-buffer invariant: after feeding `xs`, the buffer holds exactly
the last `period` inputs and the running sum is their sum. -/
theorem run_buf_sum (period : ℕ) (hp : 1 ≤ period) (xs : List ℚ) :
    (run period xs).period = period ∧
      (run period xs).buf = lastN period xs ∧
      (run period xs).sum = (lastN period xs).sum := by
  induction xs using List.reverseRecOn with
  | nil => simp [run, mk0, lastN]
  | append_singleton xs v ih =>
    obtain ⟨hper, hbuf, hsum⟩ := ih
    rw [run_append]
    unfold update
    rw [hper, hbuf, hsum]
    have hlen : (lastN period xs).length = xs.length - (xs.length - period) := by
      simp [lastN]
    by_cases hfull : (lastN period xs).length = period
    · -- buffer full: xs has at least `period` elements
      have hnp : period ≤ xs.length := by omega
      have hdrop : lastN period (xs ++ [v]) =
          (lastN period xs).tail ++ [v] := by
        unfold lastN
        rw [List.length_append]
        rw [List.drop_append_of_le_length
          (by simp only [List.length_singleton]; omega)]
        rw [List.tail_drop]
        congr 2
        simp only [List.length_singleton]
        omega
      rw [if_pos hfull, hdrop]
      refine ⟨rfl, rfl, ?_⟩
      rcases hb : lastN period xs with _ | ⟨a, t⟩
      · rw [hb] at hfull; simp at hfull; omega
      · simp [List.sum_append, List.sum_cons]
        try ring
    · -- buffer not yet full: xs is shorter than `period`
      have hnp : xs.length < period := by
        rcases Nat.lt_or_ge xs.length period with h | h
        · exact h
        · exact absurd (by omega : (lastN period xs).length = period) hfull
      have h1 : lastN period xs = xs := by
        unfold lastN
        rw [(by omega : xs.length - period = 0)]
        simp
      have h2 : lastN period (xs ++ [v]) = xs ++ [v] := by
        unfold lastN
        rw [List.length_append]
        rw [(by simp; omega : xs.length + [v].length - period = 0)]
        simp
      rw [if_neg hfull, h1, h2]
      exact ⟨rfl, rfl, by simp⟩

end SMA

/-- C7: for every `period ≥ 1` and every input sequence, the incremental
ring-buffer-with-running-sum SMA equals the naive definition: the value is
absent while fewer than `period` inputs have arrived and is the sum of the
last `period` inputs divided by `period` afterwards. -/
theorem C7_sma_refinement (period : ℕ) (hp : 1 ≤ period) (xs : List ℚ) :
    (SMA.run period xs).value = smaSpecValue period xs ∧
      (xs.length < period → (SMA.run period xs).value = none) ∧
      (period ≤ xs.length →
        (SMA.run period xs).value = some ((lastN period xs).sum / (period : ℚ))) := by
  obtain ⟨hper, hbuf, hsum⟩ := SMA.run_buf_sum period hp xs
  have hlen : (lastN period xs).length = xs.length - (xs.length - period) := by
    simp [lastN]
  have hval : (SMA.run period xs).value = smaSpecValue period xs := by
    unfold SMA.value smaSpecValue
    rw [hper, hbuf, hsum]
    by_cases h : xs.length < period
    · rw [if_pos (by omega), if_pos h]
    · rw [if_neg (by omega), if_neg h]
  refine ⟨hval, fun h => ?_, fun h => ?_⟩
  · rw [hval]; unfold smaSpecValue; rw [if_pos h]
  · rw [hval]; unfold smaSpecValue; rw [if_neg (by omega)]

/-- Witness for C7 at period 2 and inputs [1, 3, 5]: the ring-buffer SMA
agrees with the naive mean of the last two inputs. -/
theorem C7_sma_refinement_witness :
    (1 ≤ 2 ∧ (SMA.run 2 [1, 3, 5]).value = smaSpecValue 2 [1, 3, 5]) ∧
      (SMA.run 2 [1, 3, 5]).value = some 4 := by
  refine ⟨⟨by norm_num, (C7_sma_refinement 2 (by norm_num) [1, 3, 5]).1⟩, ?_⟩
  norm_num [SMA.run, SMA.mk0, SMA.update, SMA.value, List.foldl]

namespace VelezStrategy

/-- A doji bar is neutral in every state: state, counters and output are
all unchanged. -/
theorem step_doji (cfg : VelezConfig) (s : VelezStrategy) (bar : Bar)
    (h : is_doji cfg bar = true) :
    should_update_stop cfg s bar = (s, none) := by
  cases hts : s.trail_state <;>
    simp [should_update_stop, hts, on_watching, on_pulling_back, on_trailing, h]

/-- A stop price is emitted exactly in `PULLING_BACK`, on a green
(not-red) non-doji bar, when the green count was already at least 1. -/
theorem step_emits_iff (cfg : VelezConfig) (s : VelezStrategy) (bar : Bar) :
    (should_update_stop cfg s bar).2.isSome = true ↔
      (s.trail_state = .pulling_back ∧ is_doji cfg bar = false ∧
        ¬(bar.close < bar.«open») ∧ 1 ≤ s.green_count) := by
  cases hts : s.trail_state <;>
    simp [should_update_stop, hts, on_watching, on_pulling_back, on_trailing] <;>
    split_ifs <;> simp_all

/-- Whenever a stop price is emitted it is the stored pullback low. -/
theorem step_price (cfg : VelezConfig) (s : VelezStrategy) (bar : Bar) :
    ∀ p : ℚ, (should_update_stop cfg s bar).2 = some p → p = s.pullback_low := by
  intro p
  cases hts : s.trail_state <;>
    simp [should_update_stop, hts, on_watching, on_pulling_back, on_trailing] <;>
    split_ifs <;> simp_all

/-- While every state along `bars` stays `PULLING_BACK`, the pullback low
is the running minimum over the red non-doji bars, seeded at the value it
had on entry. -/
theorem stays_pb_low (cfg : VelezConfig) (bars : List Bar) :
    ∀ s : VelezStrategy, s.trail_state = .pulling_back →
      stays_pb cfg s bars = true →
      (run_trail cfg s bars).pullback_low = red_low_fold cfg s.pullback_low bars := by
  induction bars with
  | nil => intro s h1 h2; simp [run_trail, red_low_fold]
  | cons b bs ih =>
    intro s h1 h2
    rw [stays_pb] at h2
    rw [Bool.and_eq_true, decide_eq_true_eq] at h2
    obtain ⟨hpb1, hstay⟩ := h2
    have hrun : run_trail cfg s (b :: bs) =
        run_trail cfg (should_update_stop cfg s b).1 bs := rfl
    have hfold : red_low_fold cfg s.pullback_low (b :: bs) =
        red_low_fold cfg
          (if is_doji cfg b = false ∧ b.close < b.«open»
            then min s.pullback_low b.low else s.pullback_low) bs := rfl
    rw [hrun, hfold]
    by_cases hd : is_doji cfg b = true
    · rw [step_doji cfg s b hd]
      rw [step_doji cfg s b hd] at hpb1 hstay
      rw [ih s h1 hstay]
      simp [hd]
    · rw [Bool.not_eq_true] at hd
      by_cases hr : b.close < b.«open»
      · have hstep : (should_update_stop cfg s b).1 =
            { s with pullback_low := min s.pullback_low b.low, green_count := 0 } := by
          simp [should_update_stop, h1, on_pulling_back, hd, hr]
        rw [hstep] at hstay ⊢
        rw [ih { s with pullback_low := min s.pullback_low b.low, green_count := 0 }
          h1 hstay]
        simp [hd, hr]
      · -- green bar: the machine must not have transitioned to TRAILING
        by_cases hg : 2 ≤ s.green_count + 1
        · exfalso
          have hstep : (should_update_stop cfg s b).1.trail_state = .trailing := by
            simp [should_update_stop, h1, on_pulling_back, hd, hr, hg]
          rw [hstep] at hpb1
          exact absurd hpb1 (by simp)
        · have hstep : (should_update_stop cfg s b).1 =
              { s with green_count := s.green_count + 1 } := by
            simp [should_update_stop, h1, on_pulling_back, hd, hr, hg]
          rw [hstep] at hstay ⊢
          rw [ih { s with green_count := s.green_count + 1 } h1 hstay]
          simp [hd, hr]

end VelezStrategy

/-- C9: in the trailing-stop machine, (1) doji bars change nothing in any
state; (2) a stop price is emitted exactly when, in `PULLING_BACK`, a
green non-doji bar brings the green count to 2 (the stored count was
already ≥ 1); (3) the emitted price is the stored pullback low; (4) a red
non-doji bar while `TRAILING` moves the machine back to `WATCHING` without
emitting a price; (5) after a red non-doji bar from `WATCHING` starts a
pullback, as long as the machine stays in `PULLING_BACK` the pullback low
is the minimum of the lows of the red bars seen since the pullback began. -/
theorem C9_trailing_stop_machine (cfg : VelezConfig) (s : VelezStrategy) (bar : Bar) :
    (is_doji cfg bar = true → VelezStrategy.should_update_stop cfg s bar = (s, none)) ∧
      ((VelezStrategy.should_update_stop cfg s bar).2.isSome = true ↔
        (s.trail_state = .pulling_back ∧ is_doji cfg bar = false ∧
          ¬(bar.close < bar.«open») ∧ 1 ≤ s.green_count)) ∧
      (∀ p : ℚ, (VelezStrategy.should_update_stop cfg s bar).2 = some p →
        p = s.pullback_low) ∧
      (s.trail_state = .trailing → is_doji cfg bar = false →
        bar.close < bar.«open» →
        VelezStrategy.should_update_stop cfg s bar =
          ({ s with trail_state := .watching }, none)) ∧
      (∀ bars : List Bar, s.trail_state = .watching → is_doji cfg bar = false →
        bar.close < bar.«open» →
        VelezStrategy.stays_pb cfg (VelezStrategy.should_update_stop cfg s bar).1 bars = true →
        (VelezStrategy.run_trail cfg (VelezStrategy.should_update_stop cfg s bar).1 bars).pullback_low =
          VelezStrategy.red_low_fold cfg bar.low bars) := by
  refine ⟨VelezStrategy.step_doji cfg s bar, VelezStrategy.step_emits_iff cfg s bar,
    VelezStrategy.step_price cfg s bar, fun h1 h2 h3 => ?_, fun bars h1 h2 h3 h4 => ?_⟩
  · simp [VelezStrategy.should_update_stop, h1, VelezStrategy.on_trailing, h2, h3]
  · have hstep : (VelezStrategy.should_update_stop cfg s bar).1 =
        { s with
          trail_state := .pulling_back
          pullback_low := bar.low
          green_count := 0 } := by
      simp [VelezStrategy.should_update_stop, h1, VelezStrategy.on_watching, h2, h3]
    rw [hstep] at h4 ⊢
    exact VelezStrategy.stays_pb_low cfg bars _ rfl h4

/-- Witness for C9: from `WATCHING`, the red bar `redBar` starts a
pullback and (with no further bars) the pullback low is `redBar.low`. -/
theorem C9_trailing_stop_machine_witness :
    (VelezStrategy.run_trail cfgEx
        (VelezStrategy.should_update_stop cfgEx VelezStrategy.mk0 redBar).1
        []).pullback_low =
      VelezStrategy.red_low_fold cfgEx redBar.low [] :=
  (C9_trailing_stop_machine cfgEx VelezStrategy.mk0 redBar).2.2.2.2 [] rfl
    (by norm_num [is_doji, body_pct, cfgEx, redBar])
    (by norm_num [redBar]) rfl

/-- C8 counterexample: with a negative close (−1), `should_long` returns
true — every code check passes because the code only guards against
`close == 0`, not `close > 0` — so the claimed condition `bar.close > 0`
is not necessary. -/
theorem C8_counterexample :
    should_long cfgEx negBar indEx = true ∧ ¬(0 < negBar.close) := by
  constructor
  · norm_num [should_long, cfgEx, negBar, indEx, is_strong_candle, body_pct]
  · norm_num [negBar]

/-- C8 (amended): `should_long` returns true iff the bar count is warm,
all four SMA fields are present, `close ≠ 0` (the code's division guard;
the claimed `close > 0` is weakened to `close ≠ 0`), the SMAs are tight
(strict), the gap is widening (strict), fast is above slow, the bar is
green, and the body percentage is at least the strong-candle threshold. -/
theorem C8_should_long_iff (cfg : VelezConfig) (bar : Bar) (ind : IndicatorSet) :
    should_long cfg bar ind = true ↔
      (cfg.sma_slow ≤ ind.bar_count ∧
        ∃ f s pf ps : ℚ, ind.sma_fast = some f ∧ ind.sma_slow = some s ∧
          ind.prev_sma_fast = some pf ∧ ind.prev_sma_slow = some ps ∧
          bar.close ≠ 0 ∧
          |f - s| / bar.close * 100 < cfg.tightness_threshold_pct ∧
          pf - ps < f - s ∧ s < f ∧ bar.«open» < bar.close ∧
          cfg.strong_candle_body_pct ≤ body_pct bar) := by
  unfold should_long
  by_cases hw : ind.bar_count < cfg.sma_slow
  · simp only [if_pos hw, Bool.false_eq_true, false_iff]
    rintro ⟨h, -⟩
    omega
  · rcases hf : ind.sma_fast with _ | f
    · simp [hw, hf]
    · rcases hs : ind.sma_slow with _ | s
      · simp [hw, hs]
      · rcases hpf : ind.prev_sma_fast with _ | pf
        · simp [hw, hpf]
        · rcases hps : ind.prev_sma_slow with _ | ps
          · simp [hw, hps]
          · push_neg at hw
            simp only [if_neg (by omega : ¬ ind.bar_count < cfg.sma_slow),
              hw, true_and, Option.some.injEq]
            constructor
            · intro h
              split_ifs at h with h1 h2 h3 h4 h5
              exact ⟨f, s, pf, ps, rfl, rfl, rfl, rfl, h1, not_le.mp h2,
                not_le.mp h3, not_le.mp h4, not_le.mp h5,
                by simpa [is_strong_candle] using h⟩
            · rintro ⟨f1, s1, pf1, ps1, hf1, hs1, hpf1, hps1, hc, ht, hg, hfs,
                hgr, hst⟩
              cases hf1
              cases hs1
              cases hpf1
              cases hps1
              rw [if_neg hc, if_neg (not_le.mpr ht), if_neg (not_le.mpr hg),
                if_neg (not_le.mpr hfs), if_neg (not_le.mpr hgr)]
              simpa [is_strong_candle] using hst

namespace BacktestExecution

/-- A sell-stop fills iff the bar's low reaches the stop price and the
symbol has not filled an entry this bar. -/
theorem try_fill_stop_sell_isSome (st : BacktestExecution) (o : PendingOrder)
    (bar : Bar) (sp : ℚ) (hsp : o.stop_price = some sp) :
    (try_fill_stop_sell st o bar).2.isSome = true ↔
      (bar.low ≤ sp ∧ o.symbol ∉ st.entry_filled_this_bar) := by
  simp only [try_fill_stop_sell, hsp]
  split_ifs with h1 h2
  · simp [h1]
  · simp [not_le.mpr h2]
  · simp [h1, not_lt.mp h2]

/-- A filled sell-stop fills at
`max (min(open, stop) − slippage) (bar.low) (0.01)`. -/
theorem try_fill_stop_sell_price (st : BacktestExecution) (o : PendingOrder)
    (bar : Bar) (sp : ℚ) (hsp : o.stop_price = some sp) :
    ∀ f : Fill, (try_fill_stop_sell st o bar).2 = some f →
      f.fill_price = max (max (min bar.«open» sp - st.slippage) bar.low) (1/100) := by
  intro f hf
  simp only [try_fill_stop_sell, hsp] at hf
  split_ifs at hf with h1 h2
  simp only [Option.some.injEq] at hf
  rw [← hf]
  simp [execute_fill, apply_slippage_sell, MIN_FILL_PRICE]

/-- A buy-stop fills iff the bar's high reaches the stop price. -/
theorem try_fill_stop_buy_isSome (st : BacktestExecution) (o : PendingOrder)
    (bar : Bar) (sp : ℚ) (hsp : o.stop_price = some sp) :
    (try_fill_stop_buy st o bar).2.isSome = true ↔ sp ≤ bar.high := by
  simp only [try_fill_stop_buy, hsp]
  split_ifs with h1
  · simp [not_le.mpr h1]
  · simp [not_lt.mp h1]

/-- A filled buy-stop fills at
`max (min(max(open, stop) + slippage) (bar.high)) (0.01)`. -/
theorem try_fill_stop_buy_price (st : BacktestExecution) (o : PendingOrder)
    (bar : Bar) (sp : ℚ) (hsp : o.stop_price = some sp) :
    ∀ f : Fill, (try_fill_stop_buy st o bar).2 = some f →
      f.fill_price = max (min (max bar.«open» sp + st.slippage) bar.high) (1/100) := by
  intro f hf
  simp only [try_fill_stop_buy, hsp] at hf
  split_ifs at hf with h1
  simp only [Option.some.injEq] at hf
  rw [← hf]
  simp [execute_fill, apply_slippage_buy, MIN_FILL_PRICE]

/-- `process_bar` evaluates the sell-stops first, then the buy-stop
entries, then the market orders, concatenating the fills in that order
while threading the broker state. -/
theorem process_bar_priority (st : BacktestExecution) (bar : Bar) :
    (process_bar st bar).2 =
      (fill_fold try_fill_stop_sell bar (clear_bar st, [])
          (sell_stop_orders st bar)).2 ++
        (fill_fold try_fill_stop_buy bar
          ((fill_fold try_fill_stop_sell bar (clear_bar st, [])
            (sell_stop_orders st bar)).1, [])
          (entry_stop_orders st bar)).2 ++
        (fill_fold try_fill_market bar
          ((fill_fold try_fill_stop_buy bar
            ((fill_fold try_fill_stop_sell bar (clear_bar st, [])
              (sell_stop_orders st bar)).1, [])
            (entry_stop_orders st bar)).1, [])
          (market_orders st bar)).2 := by
  simp only [process_bar, clear_bar, sell_stop_orders, entry_stop_orders,
    market_orders]
  split_ifs with h
  · rw [List.isEmpty_iff] at h
    simp [h, fill_fold]
  · rfl

end BacktestExecution

/-- C2: a pending sell-stop on this bar's symbol fills iff
`bar.low ≤ stop_price` and the symbol did not fill an entry this bar, at
price `max(min(open, stop) − slippage, bar.low, 0.01)`; a pending
buy-stop fills iff `bar.high ≥ stop_price`, at price
`max(min(max(open, stop) + slippage, bar.high), 0.01)`; and within one
bar `process_bar` evaluates sell-stops before buy-stop entries before
market orders. -/
theorem C2_sim_broker_fills (st : BacktestExecution) (o : PendingOrder) (bar : Bar)
    (sp : ℚ) (hsp : o.stop_price = some sp) :
    ((BacktestExecution.try_fill_stop_sell st o bar).2.isSome = true ↔
        (bar.low ≤ sp ∧ o.symbol ∉ st.entry_filled_this_bar)) ∧
      (∀ f : Fill, (BacktestExecution.try_fill_stop_sell st o bar).2 = some f →
        f.fill_price =
          max (max (min bar.«open» sp - st.slippage) bar.low) (1/100)) ∧
      ((BacktestExecution.try_fill_stop_buy st o bar).2.isSome = true ↔
        sp ≤ bar.high) ∧
      (∀ f : Fill, (BacktestExecution.try_fill_stop_buy st o bar).2 = some f →
        f.fill_price =
          max (min (max bar.«open» sp + st.slippage) bar.high) (1/100)) ∧
      ((BacktestExecution.process_bar st bar).2 =
        (BacktestExecution.fill_fold BacktestExecution.try_fill_stop_sell bar
            (BacktestExecution.clear_bar st, [])
            (BacktestExecution.sell_stop_orders st bar)).2 ++
          (BacktestExecution.fill_fold BacktestExecution.try_fill_stop_buy bar
            ((BacktestExecution.fill_fold BacktestExecution.try_fill_stop_sell bar
              (BacktestExecution.clear_bar st, [])
              (BacktestExecution.sell_stop_orders st bar)).1, [])
            (BacktestExecution.entry_stop_orders st bar)).2 ++
          (BacktestExecution.fill_fold BacktestExecution.try_fill_market bar
            ((BacktestExecution.fill_fold BacktestExecution.try_fill_stop_buy bar
              ((BacktestExecution.fill_fold BacktestExecution.try_fill_stop_sell bar
                (BacktestExecution.clear_bar st, [])
                (BacktestExecution.sell_stop_orders st bar)).1, [])
              (BacktestExecution.entry_stop_orders st bar)).1, [])
            (BacktestExecution.market_orders st bar)).2) :=
  ⟨BacktestExecution.try_fill_stop_sell_isSome st o bar sp hsp,
    BacktestExecution.try_fill_stop_sell_price st o bar sp hsp,
    BacktestExecution.try_fill_stop_buy_isSome st o bar sp hsp,
    BacktestExecution.try_fill_stop_buy_price st o bar sp hsp,
    BacktestExecution.process_bar_priority st bar⟩

/-- Witness for C2 at the example broker state: the sell-stop at 150
fills on `barEx` (low 149 ≤ 150, no entry filled yet). -/
theorem C2_sim_broker_fills_witness :
    sellStopEx.stop_price = some 150 ∧
      ((BacktestExecution.try_fill_stop_sell brokerEx sellStopEx barEx).2.isSome = true ↔
        (barEx.low ≤ 150 ∧ sellStopEx.symbol ∉ brokerEx.entry_filled_this_bar)) :=
  ⟨rfl, (C2_sim_broker_fills brokerEx sellStopEx barEx 150 rfl).1⟩

/-- Looking up a freshly inserted key returns the inserted value. -/
theorem alookup_ainsert {α : Type} (m : List (String × α)) (k : String) (v : α) :
    alookup (ainsert m k v) k = some v := by
  simp [ainsert, alookup]

/-- Looking up an erased key returns nothing. -/
theorem alookup_aerase {α : Type} (m : List (String × α)) (k : String) :
    alookup (aerase m k) k = none := by
  induction m with
  | nil => rfl
  | cons p rest ih =>
    simp only [aerase, List.filter_cons] at ih ⊢
    by_cases h : p.1 = k
    · simpa [h] using ih
    · simpa [h, alookup] using ih

/-- C10: a buy fill replaces the symbol's open position wholesale (qty and
entry price from the filled order alone) and debits cash; a sell fill
removes the whole position and credits `order.qty × fill_price` (even if
the order quantity differs from the position quantity); a sell fill with
no open position leaves cash unchanged but still removes the pending order
and appends to the filled-orders log. -/
theorem C10_execute_fill_semantics (st : BacktestExecution) (o : PendingOrder)
    (fp : ℚ) (ts : ℤ) :
    (o.side = Side.buy →
      alookup ((BacktestExecution.execute_fill st o fp ts).1).positions o.symbol =
          some { symbol := o.symbol, qty := o.qty, avg_entry_price := fp
                 market_value := o.qty * fp, unrealized_pl := 0, opened_at := ts } ∧
        ((BacktestExecution.execute_fill st o fp ts).1).cash = st.cash - o.qty * fp) ∧
      (o.side = Side.sell →
        (∀ pos : SimPosition, alookup st.positions o.symbol = some pos →
          ((BacktestExecution.execute_fill st o fp ts).1).cash =
              st.cash + o.qty * fp ∧
            alookup ((BacktestExecution.execute_fill st o fp ts).1).positions
              o.symbol = none ∧
            alookup ((BacktestExecution.execute_fill st o fp ts).1).closed_positions
              o.symbol = some pos) ∧
        (alookup st.positions o.symbol = none →
          ((BacktestExecution.execute_fill st o fp ts).1).cash = st.cash ∧
            ((BacktestExecution.execute_fill st o fp ts).1).pending_orders =
              aerase st.pending_orders o.order_id ∧
            ((BacktestExecution.execute_fill st o fp ts).1).filled_orders =
              st.filled_orders ++ [BacktestExecution.filled_status o fp ts])) := by
  refine ⟨fun hb => ?_, fun hs => ⟨fun pos hpos => ?_, fun hnone => ?_⟩⟩
  · simp [BacktestExecution.execute_fill, hb, alookup_ainsert]
  · have hb : ¬(o.side = Side.buy) := by simp [hs]
    simp [BacktestExecution.execute_fill, hb, hpos, alookup_aerase, alookup_ainsert]
  · have hb : ¬(o.side = Side.buy) := by simp [hs]
    simp [BacktestExecution.execute_fill, hb, hnone]

/-- Witness for C10 at the example broker: the sell fill credits cash by
`order.qty × fill_price`. -/
theorem C10_execute_fill_semantics_witness :
    ((BacktestExecution.execute_fill brokerEx sellStopEx 150 0).1).cash =
      brokerEx.cash + sellStopEx.qty * 150 :=
  (((C10_execute_fill_semantics brokerEx sellStopEx 150 0).2 rfl).1 posEx
    (by simp [brokerEx, sellStopEx, alookup])).1

/-- Truncation toward zero is below the argument when it is nonnegative. -/
theorem truncQ_le_self {q : ℚ} (h : 0 ≤ q) : truncQ q ≤ q := by
  unfold truncQ
  rw [if_neg (not_lt.mpr h)]
  exact Int.floor_le q

/-- If the truncation is at least 1, so is the argument. -/
theorem one_le_of_one_le_truncQ {q : ℚ} (h : 1 ≤ truncQ q) : 1 ≤ q := by
  unfold truncQ at h
  split_ifs at h with hq
  · exfalso
    have h1 : (1 : ℤ) ≤ ⌈q⌉ := by exact_mod_cast h
    have h2 : ⌈q⌉ ≤ 0 := Int.ceil_le.mpr (by exact_mod_cast hq.le)
    omega
  · have h1 : (1 : ℤ) ≤ ⌊q⌋ := by exact_mod_cast h
    exact_mod_cast Int.le_floor.mp h1

/-- An integer bound below a nonnegative rational bounds its truncation. -/
theorem le_truncQ {n : ℤ} {q : ℚ} (h0 : 0 ≤ q) (h : (n : ℚ) ≤ q) :
    (n : ℚ) ≤ truncQ q := by
  unfold truncQ
  rw [if_neg (not_lt.mpr h0)]
  exact_mod_cast Int.le_floor.mpr h

/-- Characterization of a successful sizing: the guards all passed and the
returned qty is the three-way clamped truncation. -/
theorem calculate_succeeds (cfg : RiskConfig) (equity bp entry stop : ℚ)
    (h : 1 ≤ (calculate cfg equity bp entry stop).qty) :
    0 < entry ∧ |entry - stop| ≠ 0 ∧ entry ≤ bp ∧
      1 ≤ truncQ (min (equity * cfg.max_risk_per_trade_pct)
        cfg.max_risk_per_trade_abs / |entry - stop|) ∧
      (calculate cfg equity bp entry stop).qty =
        min (min (truncQ (min (equity * cfg.max_risk_per_trade_pct)
              cfg.max_risk_per_trade_abs / |entry - stop|))
            (truncQ (equity * cfg.max_position_pct / entry)))
          (truncQ (bp / entry)) := by
  simp only [calculate] at h ⊢
  split_ifs at h ⊢ with h1 h2 h3 h4 h5
  · norm_num at h
  · norm_num at h
  · norm_num at h
  · norm_num at h
  · norm_num at h
  · exact ⟨not_le.mp h1, h2, not_lt.mp h4, not_lt.mp h3, by simp⟩

/-- C4: whenever `PositionSizer.calculate` returns `qty ≥ 1`,
`qty × entry_price ≤ buying_power` and
`qty × stop_distance ≤ risk_amount + entry_price`, with
`stop_distance = |entry − stop|` and
`risk_amount = min(equity × max_risk_per_trade_pct, max_risk_per_trade_abs)`. -/
theorem C4_position_sizer_bounds (cfg : RiskConfig) (equity bp entry stop : ℚ)
    (h : 1 ≤ (calculate cfg equity bp entry stop).qty) :
    (calculate cfg equity bp entry stop).qty * entry ≤ bp ∧
      (calculate cfg equity bp entry stop).qty * |entry - stop| ≤
        min (equity * cfg.max_risk_per_trade_pct) cfg.max_risk_per_trade_abs +
          entry := by
  obtain ⟨hep, hsd, hbp, hq1, hqeq⟩ := calculate_succeeds cfg equity bp entry stop h
  have hsd0 : 0 < |entry - stop| := lt_of_le_of_ne (abs_nonneg _) (Ne.symm hsd)
  rw [hqeq]
  constructor
  · have hdiv0 : 0 ≤ bp / entry := div_nonneg (le_trans hep.le hbp) hep.le
    have hC : truncQ (bp / entry) ≤ bp / entry := truncQ_le_self hdiv0
    have hle : min (min (truncQ (min (equity * cfg.max_risk_per_trade_pct)
          cfg.max_risk_per_trade_abs / |entry - stop|))
        (truncQ (equity * cfg.max_position_pct / entry)))
        (truncQ (bp / entry)) ≤ bp / entry := le_trans (min_le_right _ _) hC
    calc min (min (truncQ (min (equity * cfg.max_risk_per_trade_pct)
            cfg.max_risk_per_trade_abs / |entry - stop|))
          (truncQ (equity * cfg.max_position_pct / entry)))
          (truncQ (bp / entry)) * entry
        ≤ bp / entry * entry := mul_le_mul_of_nonneg_right hle hep.le
      _ = bp := div_mul_cancel₀ bp (ne_of_gt hep)
  · have hrs : 1 ≤ min (equity * cfg.max_risk_per_trade_pct)
        cfg.max_risk_per_trade_abs / |entry - stop| := one_le_of_one_le_truncQ hq1
    have hA : truncQ (min (equity * cfg.max_risk_per_trade_pct)
        cfg.max_risk_per_trade_abs / |entry - stop|) ≤
        min (equity * cfg.max_risk_per_trade_pct)
          cfg.max_risk_per_trade_abs / |entry - stop| :=
      truncQ_le_self (by linarith)
    have hle : min (min (truncQ (min (equity * cfg.max_risk_per_trade_pct)
          cfg.max_risk_per_trade_abs / |entry - stop|))
        (truncQ (equity * cfg.max_position_pct / entry)))
        (truncQ (bp / entry)) ≤
        min (equity * cfg.max_risk_per_trade_pct)
          cfg.max_risk_per_trade_abs / |entry - stop| :=
      le_trans (min_le_left _ _) (le_trans (min_le_left _ _) hA)
    calc min (min (truncQ (min (equity * cfg.max_risk_per_trade_pct)
            cfg.max_risk_per_trade_abs / |entry - stop|))
          (truncQ (equity * cfg.max_position_pct / entry)))
          (truncQ (bp / entry)) * |entry - stop|
        ≤ min (equity * cfg.max_risk_per_trade_pct)
            cfg.max_risk_per_trade_abs / |entry - stop| * |entry - stop| :=
          mul_le_mul_of_nonneg_right hle hsd0.le
      _ = min (equity * cfg.max_risk_per_trade_pct) cfg.max_risk_per_trade_abs :=
          div_mul_cancel₀ _ hsd0.ne'
      _ ≤ min (equity * cfg.max_risk_per_trade_pct) cfg.max_risk_per_trade_abs +
          entry := by linarith

/-- Fully evaluated sizing example: equity $25,000, buying power $25,000,
entry $155.20 (= 776/5), stop $154.70 (= 1547/10), risk caps 2% / $500 and
position cap 25%. The position cap binds: `⌊6250 / 155.20⌋ = 40`. -/
theorem calculate_example :
    calculate riskCfgEx 25000 25000 (776/5) (1547/10) =
      { qty := 40, risk_amount := 500, stop_distance := 1/2
        position_value := 6208, reason := "" } := by
  have habs : |(776:ℚ)/5 - 1547/10| = 1/2 := by norm_num
  have habs2 : |(1:ℚ)/2| = 1/2 := by norm_num
  norm_num [calculate, truncQ, riskCfgEx, habs, habs2]

/-- Witness for C4 at the concrete example: qty 40 satisfies both bounds. -/
theorem C4_position_sizer_bounds_witness :
    (1:ℚ) ≤ (calculate riskCfgEx 25000 25000 (776/5) (1547/10)).qty ∧
      ((calculate riskCfgEx 25000 25000 (776/5) (1547/10)).qty * (776/5) ≤
          25000 ∧
        (calculate riskCfgEx 25000 25000 (776/5) (1547/10)).qty *
            |(776:ℚ)/5 - 1547/10| ≤
          min (25000 * riskCfgEx.max_risk_per_trade_pct)
              riskCfgEx.max_risk_per_trade_abs + 776/5) := by
  have h : (1:ℚ) ≤ (calculate riskCfgEx 25000 25000 (776/5) (1547/10)).qty := by
    rw [calculate_example]
    norm_num
  exact ⟨h, C4_position_sizer_bounds riskCfgEx 25000 25000 (776/5) (1547/10) h⟩

/-- C5 counterexample: at equity $25,000, buying power $25,000, entry
$155.20, stop $154.70, risk caps 2% / $500 and position cap 25%, the code
returns qty 40, not the claimed 41: `⌊25000 × 0.25 / 155.20⌋ = ⌊40.27⌋ = 40`. -/
theorem C5_counterexample :
    (calculate riskCfgEx 25000 25000 (776/5) (1547/10)).qty ≠ 41 := by
  rw [calculate_example]
  norm_num

/-- C5 (amended): with equity $25,000, `max_position_pct = 0.25`, entry
$155.20, stop $154.70, any risk budget of at least $20.50 and buying power
of at least $25,000, `calculate` returns qty = 40, the `max_position_pct`
cap being the binding limit. -/
theorem C5_sizing_example_qty (cfg : RiskConfig) (bp : ℚ)
    (hpos : cfg.max_position_pct = 1/4)
    (hrisk : (41:ℚ)/2 ≤
      min (25000 * cfg.max_risk_per_trade_pct) cfg.max_risk_per_trade_abs)
    (hbp : (25000:ℚ) ≤ bp) :
    (calculate cfg 25000 bp (776/5) (1547/10)).qty = 40 := by
  have habs : |(776:ℚ)/5 - 1547/10| = 1/2 := by norm_num
  have hraw : (41:ℚ) ≤
      min (25000 * cfg.max_risk_per_trade_pct) cfg.max_risk_per_trade_abs /
        (1/2) := by
    have hx : min (25000 * cfg.max_risk_per_trade_pct)
        cfg.max_risk_per_trade_abs / (1/2) =
        2 * min (25000 * cfg.max_risk_per_trade_pct)
          cfg.max_risk_per_trade_abs := by
      ring
    rw [hx]
    linarith
  have hq1 : (41:ℚ) ≤ truncQ (min (25000 * cfg.max_risk_per_trade_pct)
      cfg.max_risk_per_trade_abs / (1/2)) := by
    have h41 : ((41:ℤ):ℚ) ≤ truncQ (min (25000 * cfg.max_risk_per_trade_pct)
        cfg.max_risk_per_trade_abs / (1/2)) :=
      le_truncQ (by linarith) (by exact_mod_cast hraw)
    exact_mod_cast h41
  have hq2 : truncQ ((25000:ℚ) * (1/4) / (776/5)) = 40 := by
    norm_num [truncQ]
  have hq3 : (40:ℚ) ≤ truncQ (bp / ((776:ℚ)/5)) := by
    have h40 : ((40:ℤ):ℚ) ≤ truncQ (bp / ((776:ℚ)/5)) := by
      refine le_truncQ (div_nonneg (by linarith) (by norm_num)) ?_
      rw [le_div_iff₀ (by norm_num : (0:ℚ) < 776/5)]
      push_cast
      linarith
    exact_mod_cast h40
  simp only [calculate]
  rw [habs, hpos]
  split_ifs with h1 h2 h3 h4 h5
  · exact absurd h1 (by norm_num)
  · exact absurd h2 (by norm_num)
  · exact absurd h3 (by push_neg; linarith)
  · exact absurd h4 (by push_neg; linarith)
  · exfalso
    rw [hq2] at h5
    have hmin : (1:ℚ) ≤ min (min (truncQ
        (min (25000 * cfg.max_risk_per_trade_pct) cfg.max_risk_per_trade_abs /
          (1/2))) 40) (truncQ (bp / ((776:ℚ)/5))) :=
      le_min (le_min (by linarith) (by norm_num)) (by linarith)
    linarith
  · dsimp only
    rw [hq2]
    rw [min_eq_right (by linarith : (40:ℚ) ≤ truncQ
      (min (25000 * cfg.max_risk_per_trade_pct) cfg.max_risk_per_trade_abs /
        (1/2)))]
    rw [min_eq_left (by linarith : (40:ℚ) ≤ truncQ (bp / ((776:ℚ)/5)))]

/-- Witness for C5 (amended) at the concrete risk config of the claim
(2% / $500, i.e. risk amount $500 ≥ $20.50) and buying power $25,000. -/
theorem C5_sizing_example_qty_witness :
    (calculate riskCfgEx 25000 25000 (776/5) (1547/10)).qty = 40 :=
  C5_sizing_example_qty riskCfgEx 25000 rfl (by norm_num [riskCfgEx])
    (by norm_num)

end AlgoTrader
